import Mathlib

/-
Verification of the coevolution orchestration core (`bingo/CoevolutionIsland.py`).

The shallow embedding below translates `CoevolutionIsland` directly from the
Python source.  Scalars produced by fitness evaluation are modelled by `RVal`:
either a rational number or the IEEE not-a-number sentinel (`np.nan`), with the
usual NaN-absorbing arithmetic and NaN-incomparable ordering.  Operations that
can raise a Python exception (`IndexError`, `ZeroDivisionError`) return
`Option`/`LoopRes` values, with `none`/`raise` marking the raised exception.

The generic population engine (`Island`) is not part of the translated sources;
its contract is modelled from the specification (section 4.2), with the
engine-internal outcome of one generation (new population, number of fitness
evaluations performed) supplied by oracles, as that part is explicitly out of
scope.  External collaborators (predictor scoring `fit_func`, the exact fitness
metric, the engine's ranking used by `best_indv`) are likewise oracles.
-/

/-- Scalar fitness value: a rational number or the not-a-number sentinel. -/
inductive RVal where
  | nan : RVal
  | val : ℚ → RVal
deriving DecidableEq

/-- Addition with NaN absorption, as for IEEE floats. -/
def RVal.add : RVal → RVal → RVal
  | RVal.val a, RVal.val b => RVal.val (a + b)
  | _, _ => RVal.nan

/-- Subtraction with NaN absorption. -/
def RVal.sub : RVal → RVal → RVal
  | RVal.val a, RVal.val b => RVal.val (a - b)
  | _, _ => RVal.nan

/-- Absolute value; NaN propagates. -/
def RVal.abs : RVal → RVal
  | RVal.nan => RVal.nan
  | RVal.val a => RVal.val |a|

/-- Division by a (positive) natural number; NaN propagates. -/
def RVal.divN : RVal → Nat → RVal
  | RVal.nan, _ => RVal.nan
  | RVal.val a, n => RVal.val (a / (n : ℚ))

/-- Strict greater-than as in Python: any comparison with NaN is false. -/
def RVal.gt : RVal → RVal → Bool
  | RVal.val a, RVal.val b => decide (b < a)
  | _, _ => false

/-- Underlying rational of a numeric value (0 for NaN; only used under
non-NaN hypotheses). -/
def RVal.toQ : RVal → ℚ
  | RVal.nan => 0
  | RVal.val a => a

/-- Whether the value is a number that is greater than or equal to zero;
false for NaN, as for the Python comparison `x >= 0`. -/
def RVal.isNonnegNum : RVal → Bool
  | RVal.nan => false
  | RVal.val a => decide (0 ≤ a)

/-- An individual as the orchestrator sees it: an opaque genome (identified by
a code) and the "fitness is current" flag (`fit_set`).  Cloning (`copy()`) of
such a value is the value itself in this pure embedding. -/
structure Indv where
  genome : Nat
  fit_set : Bool
deriving DecidableEq

/-- Modelled from the spec: section 4.2 Population Engine state — an ordered
sequence of individuals, a generation-age counter and a cumulative
fitness-evaluation counter. -/
structure Island where
  pop : List Indv
  age : Nat
  fitness_evals : Nat
deriving DecidableEq

/-- External collaborators, supplied as oracles:
`predScore p g` models `pred.fit_func(sol, fitness_metric, training_data)` for
a predictor with genome `p` and a solution with genome `g`; `trueFit g` models
`fitness_metric.evaluate_fitness` on genome `g`; `pOracle`/`sOracle` give, per
generation age, the engine-internal outcome (new population, evaluations
performed) of one predictor/solution generation; `bestF` models the engine
ranking behind `best_indv()` (none on an empty population, where the engine
raises). -/
structure Oracles where
  predScore : Nat → Nat → RVal
  trueFit : Nat → RVal
  pOracle : Nat → List Indv × Nat
  sOracle : Nat → List Indv × Nat
  bestF : List Indv → Option Indv

/-- Modelled from the spec: section 4.2 — `generationalStep()` performs one
generation of selection, variation and evaluation against the injected fitness
function and increments both counters.  Selection and variation are out of
scope (section 1), so the resulting population and the number of evaluations
performed are supplied by the oracle pair `o`. -/
def Island.generational_step (o : List Indv × Nat) (isl : Island) : Island :=
  { pop := o.1, age := isl.age + 1, fitness_evals := isl.fitness_evals + o.2 }

/-- Modelled from the spec: section 4.2 — `loadPopulation(list, replace)`,
genome-level deserialization.  Loaded genomes become fresh individuals (no
fitness state survives genome-level serialization, so their flag is false);
with `replace = false` they are appended to the current population. -/
def Island.load_population (genomes : List Nat) (replace : Bool) (isl : Island) : Island :=
  { isl with pop := (if replace then [] else isl.pop) ++
      genomes.map (fun g => { genome := g, fit_set := false }) }

/-- Filter a list by the index of each element, starting at index `i`; the
embedding of Python's `[x for i, x in enumerate(l) if keep(i)]`. -/
def filterIdx {α : Type} (keep : Nat → Bool) : Nat → List α → List α
  | _, [] => []
  | i, x :: xs =>
      if keep i then x :: filterIdx keep (i + 1) xs else filterIdx keep (i + 1) xs

/-- Modelled from the spec: section 4.2 — `dumpPopulation(subset, removal)`,
genome-level serialization of the index subset (default: all indices), with
the dumped members removed from the population when `withRemoval` is true. -/
def Island.dump_population (subset : Option (List Nat)) (withRemoval : Bool)
    (isl : Island) : List Nat × Island :=
  let sub := subset.getD (List.range isl.pop.length)
  let dumped := (filterIdx (fun i => decide (i ∈ sub)) 0 isl.pop).map Indv.genome
  let pop2 := if withRemoval then filterIdx (fun i => !decide (i ∈ sub)) 0 isl.pop
              else isl.pop
  (dumped, { isl with pop := pop2 })

/-- Orchestrator state, translated from `CoevolutionIsland.__init__`
(the source field `predictor_ratio` is named `ratio_target` here). -/
structure CoevState where
  solution_island : Island
  predictor_island : Island
  trainers : List Indv
  trainers_true_fitness : List RVal
  best_predictor : Indv
  ratio_target : ℚ
  predictor_update_freq : Nat
  trainer_update_freq : Nat
  predictor_to_solution_eval_cost : Nat
deriving DecidableEq

/-- Translated from `CoevolutionIsland.predictor_fitness` (source lines
138-151): accumulate `abs(true_fit - predicted_fit)` over
`zip(self.trainers, self.trainers_true_fitness)` and divide by
`len(self.trainers)`; `none` models the `ZeroDivisionError` raised when the
trainer list is empty. -/
def predictor_fitness (O : Oracles) (s : CoevState) (predictor : Indv) : Option RVal :=
  let err := (s.trainers.zip s.trainers_true_fitness).foldl
    (fun acc tt => RVal.add acc (RVal.abs (RVal.sub tt.2
      (O.predScore predictor.genome tt.1.genome)))) (RVal.val 0)
  if s.trainers.length = 0 then none else some (RVal.divN err s.trainers.length)

/-- The vector of predictor estimates for one solution, as built in
`add_new_trainer` (source lines 176-179). -/
def pfit_list (O : Oracles) (s : CoevState) (sol : Indv) : List RVal :=
  s.predictor_island.pop.map (fun pred => O.predScore pred.genome sol.genome)

/-- Population variance as computed by `np.var`: NaN on an empty vector or on
any vector containing NaN (the surrounding `try/except` in the source also
maps numeric exceptions to NaN). -/
def npVar (l : List RVal) : RVal :=
  if l.length = 0 then RVal.nan
  else if l.any (fun r => r = RVal.nan) then RVal.nan
  else
    let qs := l.map RVal.toQ
    let m := qs.sum / (qs.length : ℚ)
    RVal.val ((qs.map (fun a => (a - m) ^ 2)).sum / (qs.length : ℚ))

/-- The candidate-selection scan of `add_new_trainer` (source lines 173-187):
start from `pop[0]` with running maximum 0; a candidate replaces the current
best exactly when its variance is strictly greater (NaN never is). -/
def scan_best (O : Oracles) (s : CoevState) : Indv :=
  (s.solution_island.pop.foldl
    (fun (acc : Indv × RVal) sol =>
      if RVal.gt (npVar (pfit_list O s sol)) acc.2 then (sol, npVar (pfit_list O s sol))
      else acc)
    (s.solution_island.pop.headD { genome := 0, fit_set := false }, RVal.val 0)).1

/-- Translated from `CoevolutionIsland.add_new_trainer` (source lines
168-192).  `none` models the raised exceptions: `IndexError` on an empty
solution population (`pop[0]`), `ZeroDivisionError` when the trainer-update
frequency or the trainer count is zero (`//` and `%`).  Note that only
`self.trainers[location]` is assigned; `self.trainers_true_fitness` is left
unchanged by the source. -/
def add_new_trainer (O : Oracles) (s : CoevState) : Option CoevState :=
  match s.solution_island.pop with
  | [] => none
  | _ :: _ =>
    if s.trainer_update_freq = 0 then none
    else if s.trainers.length = 0 then none
    else
      let s_best := scan_best O s
      let location := (s.solution_island.age / s.trainer_update_freq) % s.trainers.length
      some { s with trainers := s.trainers.set location s_best }

/-- The ratio computation of `generational_step` (source lines 201-204 and
220-223): `predictorEvals / (predictorEvals + solutionEvals / costRatio)`;
`none` models the `ZeroDivisionError` on a zero cost or a zero denominator. -/
def ratioOf (s : CoevState) : Option ℚ :=
  if s.predictor_to_solution_eval_cost = 0 then none
  else
    let p : ℚ := (s.predictor_island.fitness_evals : ℚ)
    let q : ℚ := (s.solution_island.fitness_evals : ℚ)
    let d : ℚ := p + q / ((s.predictor_to_solution_eval_cost : ℚ))
    if d = 0 then none else some (p / d)

/-- Whether the while-loop guard `current_ratio < self.predictor_ratio` holds
(false also when the ratio computation raises). -/
def ratio_low (s : CoevState) : Bool :=
  match ratioOf s with
  | none => false
  | some r => decide (r < s.ratio_target)

/-- The trainer-refresh step guarded inside the predictor loop (source lines
208-212): when the next predictor generation age is a multiple of the
trainer-update frequency, call `add_new_trainer` and clear the
"fitness is current" flag of every predictor individual. -/
def trainer_update (O : Oracles) (s : CoevState) : Option CoevState :=
  if s.trainer_update_freq = 0 then none
  else if (s.predictor_island.age + 1) % s.trainer_update_freq = 0 then
    (add_new_trainer O s).map (fun s1 =>
      { s1 with predictor_island := { s1.predictor_island with
          pop := s1.predictor_island.pop.map (fun i => { i with fit_set := false }) } })
  else some s

/-- One iteration of the predictor while-loop body (source lines 208-223):
the guarded trainer refresh followed by one predictor generation. -/
def loop_body (O : Oracles) (s : CoevState) : Option CoevState :=
  (trainer_update O s).map (fun s1 =>
    { s1 with predictor_island :=
        Island.generational_step (O.pOracle s1.predictor_island.age) s1.predictor_island })

/-- Result of a stateful operation that may raise; `fuelOut` is the model
artifact for exhausting the fuel of the while-loop, not a raised exception. -/
inductive LoopRes where
  | ok : CoevState → LoopRes
  | raise : LoopRes
  | fuelOut : LoopRes
deriving DecidableEq

/-- The predictor while-loop of `generational_step` (source lines 207-223):
iterate `loop_body` as long as the current ratio is strictly below the target
ratio.  The ratio is recomputed from the state on each test, exactly as the
source recomputes it at the end of each iteration. -/
def predictor_loop (O : Oracles) : Nat → CoevState → LoopRes
  | 0, _ => LoopRes.fuelOut
  | fuel + 1, s =>
    match ratioOf s with
    | none => LoopRes.raise
    | some r =>
      if r < s.ratio_target then
        match loop_body O s with
        | none => LoopRes.raise
        | some t => predictor_loop O fuel t
      else LoopRes.ok s

/-- The scheduled Best-Predictor Cache refresh (source lines 226-231): when
the next solution generation age is a multiple of the predictor-update
frequency, clone the predictor population's best member into the cache and
clear the "fitness is current" flag of every solution individual. -/
def predictor_refresh (O : Oracles) (s : CoevState) : Option CoevState :=
  if s.predictor_update_freq = 0 then none
  else if (s.solution_island.age + 1) % s.predictor_update_freq = 0 then
    match O.bestF s.predictor_island.pop with
    | none => none
    | some b => some { s with
        best_predictor := b,
        solution_island := { s.solution_island with
          pop := s.solution_island.pop.map (fun i => { i with fit_set := false }) } }
  else some s

/-- The final solution step of `generational_step` (source line 234); the
pareto-front recomputation is engine-internal and carries no state here. -/
def solution_phase (O : Oracles) (s : CoevState) : CoevState :=
  { s with solution_island :=
      Island.generational_step (O.sOracle s.solution_island.age) s.solution_island }

/-- Translated from `CoevolutionIsland.generational_step` (source lines
194-240): the predictor while-loop, then the scheduled cache refresh, then
exactly one solution generation. -/
def generational_step (O : Oracles) (fuel : Nat) (s : CoevState) : LoopRes :=
  match predictor_loop O fuel s with
  | LoopRes.ok s1 =>
    match predictor_refresh O s1 with
    | none => LoopRes.raise
    | some s2 => LoopRes.ok (solution_phase O s2)
  | r => r

/-- Translated from `CoevolutionIsland.dump_populations` (source lines
242-284): dump the two engine populations and the `(genome, true fitness)`
pairs of the trainer subset (default: all indices, via
`list(range(len(self.trainers)))`); with removal, drop the dumped indices from
both trainer lists. -/
def dump_populations (s : CoevState) (s_sub p_sub t_sub : Option (List Nat))
    (withRemoval : Bool) : (List Nat × List Nat × List (Nat × RVal)) × CoevState :=
  let sdump := s.solution_island.dump_population s_sub withRemoval
  let pdump := s.predictor_island.dump_population p_sub withRemoval
  let tsub := t_sub.getD (List.range s.trainers.length)
  let tl := (filterIdx (fun i => decide (i ∈ tsub)) 0
              (s.trainers.zip s.trainers_true_fitness)).map
            (fun tt => (tt.1.genome, tt.2))
  let ts := if withRemoval then filterIdx (fun i => !decide (i ∈ tsub)) 0 s.trainers
            else s.trainers
  let tf := if withRemoval then
              filterIdx (fun i => !decide (i ∈ tsub)) 0 s.trainers_true_fitness
            else s.trainers_true_fitness
  ((sdump.1, pdump.1, tl),
   { s with solution_island := sdump.2, predictor_island := pdump.2,
            trainers := ts, trainers_true_fitness := tf })

/-- Translated from `CoevolutionIsland.load_populations` (source lines
286-311): load both engine populations, rebuild (replace) or extend (append)
the trainer lists from the `(genome, fitness)` pairs, then unconditionally
recompute the Best-Predictor Cache from the predictor population's best
member; `none` models the raise when that population is empty. -/
def load_populations (O : Oracles) (pl : List Nat × List Nat × List (Nat × RVal))
    (replace : Bool) (s : CoevState) : Option CoevState :=
  let si := Island.load_population pl.1 replace s.solution_island
  let pi := Island.load_population pl.2.1 replace s.predictor_island
  let ts := (if replace then [] else s.trainers) ++
            pl.2.2.map (fun p => ({ genome := p.1, fit_set := false } : Indv))
  let tf := (if replace then [] else s.trainers_true_fitness) ++ pl.2.2.map Prod.snd
  match O.bestF pi.pop with
  | none => none
  | some b => some { s with
      solution_island := si,
      predictor_island := pi,
      trainers := ts,
      trainers_true_fitness := tf,
      best_predictor := b }

/-- Legality of a trainer candidate during construction (source lines 96-101):
the exact fitness is not NaN and every current predictor scores it without
NaN. -/
def legal_trainer (O : Oracles) (predPop : List Indv) (sol : Indv) : Bool :=
  decide (O.trueFit sol.genome ≠ RVal.nan) &&
  predPop.all (fun pred => decide (O.predScore pred.genome sol.genome ≠ RVal.nan))

/-- The rejection-sampling loop for one trainer (source lines 92-103).  The
random draws of `np.random.randint` are supplied by the stream `draws`
(consumed from position `k`); the unbounded while-loop is bounded by `fuel`.
Returns the accepted individual, its exact fitness and the next stream
position. -/
def find_trainer (O : Oracles) (solPop predPop : List Indv) (draws : Nat → Nat) :
    Nat → Nat → Option (Indv × RVal × Nat)
  | 0, _ => none
  | fuel + 1, k =>
    match solPop.get? (draws k) with
    | none => none
    | some sol =>
      if legal_trainer O predPop sol then some (sol, O.trueFit sol.genome, k + 1)
      else find_trainer O solPop predPop draws fuel (k + 1)

/-- The trainer-construction loop (source lines 89-103): build `n` trainers by
rejection sampling, threading the draw-stream position. -/
def init_trainers (O : Oracles) (solPop predPop : List Indv) (draws : Nat → Nat)
    (fuel : Nat) : Nat → Nat → Option (List Indv × List RVal × Nat)
  | 0, k => some ([], [], k)
  | n + 1, k =>
    match find_trainer O solPop predPop draws fuel k with
    | none => none
    | some (sol, tfit, k2) =>
      match init_trainers O solPop predPop draws fuel n k2 with
      | none => none
      | some (ts, tfs, k3) => some (sol :: ts, tfit :: tfs, k3)

/-- Translated from `CoevolutionIsland.__init__` (source lines 86-112), given
the two freshly constructed engines: build the trainer lists by rejection
sampling, set the cost proxy `predictor_to_solution_eval_cost` to the number
of trainers, and initialize the Best-Predictor Cache as a clone of the
predictor population's best member.  Engine construction, the
manipulator-index clamp and logging involve only external collaborators and
carry no orchestrator state. -/
def coevolution_init (O : Oracles) (solI predI : Island) (rt : ℚ)
    (pfreq tsize tfreq fuel : Nat) (draws : Nat → Nat) : Option CoevState :=
  match init_trainers O solI.pop predI.pop draws fuel tsize 0 with
  | none => none
  | some (ts, tfs, _) =>
    match O.bestF predI.pop with
    | none => none
    | some b =>
      some { solution_island := solI, predictor_island := predI,
             trainers := ts, trainers_true_fitness := tfs,
             best_predictor := b, ratio_target := rt,
             predictor_update_freq := pfreq, trainer_update_freq := tfreq,
             predictor_to_solution_eval_cost := ts.length }

/-! Concrete collaborators and states used in witnesses and counterexamples. -/

/-- Oracle whose predictor scoring always returns the number 1 and whose exact
metric always returns 7; the ranking takes the first population member. -/
def oNum : Oracles :=
  { predScore := fun _ _ => RVal.val 1,
    trueFit := fun _ => RVal.val 7,
    pOracle := fun _ => ([{ genome := 5, fit_set := false }], 2),
    sOracle := fun _ => ([{ genome := 6, fit_set := false }], 3),
    bestF := List.head? }

/-- Oracle whose predictor scoring always returns the not-a-number sentinel. -/
def oNan : Oracles :=
  { predScore := fun _ _ => RVal.nan,
    trueFit := fun _ => RVal.val 7,
    pOracle := fun _ => ([{ genome := 5, fit_set := false }], 2),
    sOracle := fun _ => ([{ genome := 6, fit_set := false }], 3),
    bestF := List.head? }

/-- A small orchestrator state: one solution, one predictor, one trainer whose
stored exact fitness is 5. -/
def stA : CoevState :=
  { solution_island := { pop := [{ genome := 1, fit_set := false }],
                         age := 0, fitness_evals := 0 },
    predictor_island := { pop := [{ genome := 2, fit_set := false }],
                          age := 0, fitness_evals := 1 },
    trainers := [{ genome := 0, fit_set := false }],
    trainers_true_fitness := [RVal.val 5],
    best_predictor := { genome := 2, fit_set := false },
    ratio_target := 0,
    predictor_update_freq := 50,
    trainer_update_freq := 50,
    predictor_to_solution_eval_cost := 1 }

/-- A state whose single solution individual has its flag set. -/
def stB : CoevState :=
  { stA with
    solution_island := { pop := [{ genome := 1, fit_set := true }],
                         age := 0, fitness_evals := 0 },
    best_predictor := { genome := 3, fit_set := false } }

/-- A state whose single predictor individual has its flag set. -/
def stC : CoevState :=
  { stA with
    solution_island := { pop := [{ genome := 9, fit_set := false }],
                         age := 0, fitness_evals := 0 },
    predictor_island := { pop := [{ genome := 2, fit_set := true }],
                          age := 0, fitness_evals := 1 } }

/-- A state at solution age 49 with four trainers (genomes 0, 1, 2, 3) and
trainer-update frequency 50. -/
def stD : CoevState :=
  { stA with
    solution_island := { pop := [{ genome := 9, fit_set := false }],
                         age := 49, fitness_evals := 0 },
    trainers := [{ genome := 0, fit_set := false }, { genome := 1, fit_set := false },
                 { genome := 2, fit_set := false }, { genome := 3, fit_set := false }],
    trainers_true_fitness := [RVal.val 5, RVal.val 5, RVal.val 5, RVal.val 5] }

/-- A state with an empty Trainer Set. -/
def stE : CoevState := { stA with trainers := [], trainers_true_fitness := [] }

/-- One solution-member island used for the construction witness. -/
def islW : Island := { pop := [{ genome := 1, fit_set := false }], age := 0, fitness_evals := 0 }

/-- The orchestrator state built by `coevolution_init` in the witness. -/
def s0W : CoevState :=
  { solution_island := islW, predictor_island := islW,
    trainers := [{ genome := 1, fit_set := false }],
    trainers_true_fitness := [RVal.val 7],
    best_predictor := { genome := 1, fit_set := false },
    ratio_target := 0, predictor_update_freq := 50, trainer_update_freq := 50,
    predictor_to_solution_eval_cost := 1 }

/-- A state at solution age 49 whose single solution individual has its flag
set (the scheduled refresh fires at this age). -/
def stR : CoevState :=
  { stA with solution_island := { pop := [{ genome := 1, fit_set := true }],
                                  age := 49, fitness_evals := 0 } }

/-- The state produced by the scheduled refresh on `stR`. -/
def stR2 : CoevState :=
  { stR with solution_island := { pop := [{ genome := 1, fit_set := false }],
                                  age := 49, fitness_evals := 0 } }

/-- The state produced by `load_populations ([2], [3], [(4, 1)]) true` on `stA`. -/
def stL2 : CoevState :=
  { stA with
    solution_island := { pop := [{ genome := 2, fit_set := false }],
                         age := 0, fitness_evals := 0 },
    predictor_island := { pop := [{ genome := 3, fit_set := false }],
                          age := 0, fitness_evals := 1 },
    trainers := [{ genome := 4, fit_set := false }],
    trainers_true_fitness := [RVal.val 1],
    best_predictor := { genome := 3, fit_set := false } }

/-- A state at predictor age 49 whose predictor individual has its flag set
(the scheduled trainer refresh fires at this age). -/
def stT : CoevState :=
  { stA with predictor_island := { pop := [{ genome := 2, fit_set := true }],
                                   age := 49, fitness_evals := 1 } }

/-- The state produced by the firing `trainer_update` on `stT`. -/
def stT2 : CoevState :=
  { stT with
    trainers := [{ genome := 1, fit_set := false }],
    predictor_island := { pop := [{ genome := 2, fit_set := false }],
                          age := 49, fitness_evals := 1 } }

/-- The state produced by `add_new_trainer` on `stD` (slot 0 overwritten). -/
def stD2 : CoevState :=
  { stD with trainers := [{ genome := 9, fit_set := false }, { genome := 1, fit_set := false },
                          { genome := 2, fit_set := false }, { genome := 3, fit_set := false }] }

/-- Number of iterations the predictor while-loop performs within the given
fuel. -/
def loop_count (O : Oracles) : Nat → CoevState → Nat
  | 0, _ => 0
  | fuel + 1, s =>
      if ratio_low s then
        match loop_body O s with
        | none => 0
        | some t => loop_count O fuel t + 1
      else 0

/-- The predictor while-loop performs exactly `n` iterations from `s` to `t`:
the guard holds on entry to each iteration and fails on exit. -/
def loop_runs (O : Oracles) : Nat → CoevState → CoevState → Prop
  | 0, s, t => t = s ∧ ratio_low s = false
  | n + 1, s, t => ratio_low s = true ∧
      (match loop_body O s with
       | none => False
       | some u => loop_runs O n u t)

/-- States on which `generational_step` cannot raise: non-zero frequencies and
cost proxy, at least one evaluation recorded, and non-empty populations and
trainer list. -/
def SafeState (s : CoevState) : Prop :=
  s.trainer_update_freq ≠ 0 ∧ s.predictor_update_freq ≠ 0 ∧
  s.predictor_to_solution_eval_cost ≠ 0 ∧
  (s.predictor_island.fitness_evals ≠ 0 ∨ s.solution_island.fitness_evals ≠ 0) ∧
  s.solution_island.pop ≠ [] ∧ s.trainers ≠ [] ∧ s.predictor_island.pop ≠ []

/-- C1: the claim that `add_new_trainer` stores the chosen candidate together
with its freshly computed exact fitness fails on the code: at this concrete
state the trainer genome at the target slot becomes 1 but the stored fitness
stays 5, while the exact metric value of genome 1 is 7 — the source assigns
`self.trainers[location]` and never touches `self.trainers_true_fitness`, so
the slot's stored fitness is stale. -/
theorem add_new_trainer_stale_fitness_bug :
    (add_new_trainer oNan stA).map
      (fun t => (t.trainers.map Indv.genome, t.trainers_true_fitness)) =
      some ([1], [RVal.val 5]) ∧
    oNan.trueFit 1 = RVal.val 7 ∧ RVal.val 5 ≠ RVal.val 7 := by
  refine ⟨by decide, rfl, by decide⟩

/-- C2, counterexample: `load_populations` replaces the Best-Predictor Cache
(here from genome 3 to genome 2) but, with `replace = false`, the retained
solution individual keeps its "fitness is current" flag set to true, so the
claim that every cache replacement leaves all solution flags false is wrong. -/
theorem load_populations_stale_solution_flag :
    (load_populations oNum ([], [], []) false stB).map
      (fun t => (t.solution_island.pop, t.best_predictor)) =
      some ([{ genome := 1, fit_set := true }], { genome := 2, fit_set := false }) ∧
    stB.best_predictor ≠ ({ genome := 2, fit_set := false } : Indv) := by
  refine ⟨by decide, by decide⟩

/-- C3, counterexample: a direct `add_new_trainer` call mutates the Trainer
Set (the trainer genome changes from 0 to 9) but leaves the predictor
individual's "fitness is current" flag equal to true — only the scheduled call
inside `generational_step` clears the flags. -/
theorem direct_add_new_trainer_keeps_predictor_flag :
    (add_new_trainer oNan stC).map
      (fun t => (t.trainers.map Indv.genome, t.predictor_island.pop.map Indv.fit_set)) =
      some ([9], [true]) := by decide

/-- C6, counterexample: at solution age 49 with four trainers and frequency
50, `add_new_trainer` overwrites slot 0 (the trainer list becomes genomes
[9, 1, 2, 3]), not slot 1 as the claimed sequence 1, 2, 3, 0 states — the
source computes `age // freq`, not `(age + 1) // freq`. -/
theorem scheduler_slot_sequence_counterexample :
    stD.solution_island.age = 49 ∧ stD.trainer_update_freq = 50 ∧
    stD.trainers.map Indv.genome = [0, 1, 2, 3] ∧
    (add_new_trainer oNan stD).map (fun t => t.trainers.map Indv.genome) =
      some ([9, 1, 2, 3]) := by
  refine ⟨rfl, rfl, by decide, by decide⟩

/-- C7, counterexample: when a predictor's estimate on a trainer is the
not-a-number sentinel, `predictor_fitness` returns NaN, which is not a number
greater than or equal to zero — the claim that the value is always ≥ 0 fails. -/
theorem predictor_fitness_nan_not_nonneg :
    predictor_fitness oNan stA { genome := 2, fit_set := false } = some RVal.nan ∧
    RVal.isNonnegNum RVal.nan = false := by
  refine ⟨by decide, rfl⟩

/-- C8, counterexample: `dump_populations` with removal (default subsets)
removes every trainer, so the Trainer Set length is not invariant across every
`dump_populations` call: it drops from 1 to 0. -/
theorem dump_removal_shrinks_trainers :
    stA.trainers.length = 1 ∧
    ((dump_populations stA none none none true).2).trainers.length = 0 := by
  refine ⟨rfl, by decide⟩

/-! Helper lemmas about index filtering and zipping. -/

theorem filterIdx_keep_all {α : Type} (keep : Nat → Bool) :
    ∀ (l : List α) (k : Nat), (∀ j, k ≤ j → j < k + l.length → keep j = true) →
      filterIdx keep k l = l := by
  intro l
  induction l with
  | nil => intro k _; rfl
  | cons x xs ih =>
    intro k h
    have hk : keep k = true := h k le_rfl (by simp only [List.length_cons]; omega)
    simp only [filterIdx, hk, if_true]
    rw [ih (k + 1)]
    intro j hj1 hj2
    exact h j (by omega) (by simp only [List.length_cons]; omega)

theorem filterIdx_keep_none {α : Type} (keep : Nat → Bool) :
    ∀ (l : List α) (k : Nat), (∀ j, k ≤ j → j < k + l.length → keep j = false) →
      filterIdx keep k l = [] := by
  intro l
  induction l with
  | nil => intro k _; rfl
  | cons x xs ih =>
    intro k h
    have hk : keep k = false := h k le_rfl (by simp only [List.length_cons]; omega)
    simp only [filterIdx, hk, Bool.false_eq_true, if_false]
    rw [ih (k + 1)]
    intro j hj1 hj2
    exact h j (by omega) (by simp only [List.length_cons]; omega)

theorem filterIdx_range_all {α : Type} (l : List α) (n : Nat) (h : l.length ≤ n) :
    filterIdx (fun i => decide (i ∈ List.range n)) 0 l = l := by
  apply filterIdx_keep_all
  intro j hj1 hj2
  simp only [List.mem_range, decide_eq_true_eq]
  omega

theorem filterIdx_range_none {α : Type} (l : List α) (n : Nat) (h : l.length ≤ n) :
    filterIdx (fun i => !decide (i ∈ List.range n)) 0 l = [] := by
  apply filterIdx_keep_none
  intro j hj1 hj2
  simp only [List.mem_range, Bool.not_eq_false', decide_eq_true_eq]
  omega

theorem zip_map_fst_eq {α β : Type} :
    ∀ (l1 : List α) (l2 : List β), l1.length = l2.length →
      (l1.zip l2).map Prod.fst = l1 := by
  intro l1
  induction l1 with
  | nil => intro l2 _; rfl
  | cons x xs ih =>
    intro l2 h
    cases l2 with
    | nil => simp at h
    | cons y ys =>
      simp only [List.zip_cons_cons, List.map_cons]
      rw [ih ys (by simp only [List.length_cons] at h; omega)]

theorem zip_map_snd_eq {α β : Type} :
    ∀ (l1 : List α) (l2 : List β), l1.length = l2.length →
      (l1.zip l2).map Prod.snd = l2 := by
  intro l1
  induction l1 with
  | nil =>
    intro l2 h
    cases l2 with
    | nil => rfl
    | cons y ys => simp at h
  | cons x xs ih =>
    intro l2 h
    cases l2 with
    | nil => simp at h
    | cons y ys =>
      simp only [List.zip_cons_cons, List.map_cons]
      rw [ih ys (by simp only [List.length_cons] at h; omega)]

/-- C10: `predictor_fitness` divides the accumulated error by the trainer
count, so it is defined (some value) whenever the Trainer Set is non-empty and
raises a division-by-zero error (`none`) whenever the Trainer Set is empty; an
empty Trainer Set is reachable through the public interface —
`dump_populations` with removal and the default (full) trainer subset leaves
the trainer list empty. -/
theorem predictor_fitness_empty_trainers (O : Oracles) (s : CoevState) (p : Indv) :
    (s.trainers ≠ [] → (predictor_fitness O s p).isSome) ∧
    (s.trainers = [] → predictor_fitness O s p = none) ∧
    ((dump_populations s none none none true).2).trainers = [] := by
  refine ⟨?_, ?_, ?_⟩
  · intro h
    have hl : s.trainers.length ≠ 0 := fun hh => h (List.length_eq_zero.mp hh)
    simp [predictor_fitness, hl]
  · intro h
    simp [predictor_fitness, h]
  · simp only [dump_populations, Option.getD_none, if_true]
    exact filterIdx_range_none _ _ le_rfl

theorem predictor_fitness_empty_trainers_witness :
    (predictor_fitness oNum stA { genome := 2, fit_set := false }).isSome ∧
    predictor_fitness oNum stE { genome := 2, fit_set := false } = none :=
  ⟨(predictor_fitness_empty_trainers oNum stA { genome := 2, fit_set := false }).1
     (by decide),
   (predictor_fitness_empty_trainers oNum stE { genome := 2, fit_set := false }).2.1
     rfl⟩

theorem init_trainers_length (O : Oracles) (solPop predPop : List Indv)
    (draws : Nat → Nat) (fuel : Nat) :
    ∀ (n k : Nat) (ts : List Indv) (tfs : List RVal) (k2 : Nat),
      init_trainers O solPop predPop draws fuel n k = some (ts, tfs, k2) →
      ts.length = n ∧ tfs.length = n := by
  intro n
  induction n with
  | zero =>
    intro k ts tfs k2 h
    simp only [init_trainers, Option.some.injEq, Prod.mk.injEq] at h
    obtain ⟨h1, h2, _⟩ := h
    simp [← h1, ← h2]
  | succ n ih =>
    intro k ts tfs k2 h
    simp only [init_trainers] at h
    split at h
    · exact Option.noConfusion h
    · rename_i sol tfit k3 hf
      split at h
      · exact Option.noConfusion h
      · rename_i ts2 tfs2 k4 hi
        simp only [Option.some.injEq, Prod.mk.injEq] at h
        obtain ⟨h1, h2, _⟩ := h
        have hlen := ih _ ts2 tfs2 k4 hi
        simp [← h1, ← h2, hlen.1, hlen.2]

/-- C8 (amended): after construction the Trainer Set length equals the
configured trainer-population size, and it is invariant across every
`add_new_trainer` call and every `dump_populations` call without removal
(`dump_populations` with removal and `load_populations` may change it). -/
theorem trainer_set_length_invariants :
    (∀ O solI predI rt pfreq tsize tfreq fuel draws s0,
        coevolution_init O solI predI rt pfreq tsize tfreq fuel draws = some s0 →
        s0.trainers.length = tsize) ∧
    (∀ O s s2, add_new_trainer O s = some s2 →
        s2.trainers.length = s.trainers.length) ∧
    (∀ (s : CoevState) a b c,
        ((dump_populations s a b c false).2).trainers.length = s.trainers.length) := by
  refine ⟨?_, ?_, ?_⟩
  · intro O solI predI rt pfreq tsize tfreq fuel draws s0 h
    simp only [coevolution_init] at h
    split at h
    · exact Option.noConfusion h
    · rename_i ts tfs k hi
      split at h
      · exact Option.noConfusion h
      · rename_i b hb
        simp only [Option.some.injEq] at h
        subst h
        exact (init_trainers_length O solI.pop predI.pop draws fuel tsize 0 ts tfs k hi).1
  · intro O s s2 h
    simp only [add_new_trainer] at h
    split at h
    · exact Option.noConfusion h
    · split at h
      · exact Option.noConfusion h
      · split at h
        · exact Option.noConfusion h
        · simp only [Option.some.injEq] at h
          subst h
          simp [List.length_set]
  · intro s a b c
    simp [dump_populations]

theorem trainer_set_length_invariants_witness :
    s0W.trainers.length = 1 ∧
    ({ stA with trainers := [{ genome := 1, fit_set := false }] } : CoevState).trainers.length
      = stA.trainers.length ∧
    ((dump_populations stA none none none false).2).trainers.length = stA.trainers.length :=
  ⟨trainer_set_length_invariants.1 oNum islW islW 0 50 1 50 1 (fun _ => 0) s0W (by decide),
   trainer_set_length_invariants.2.1 oNan stA
     { stA with trainers := [{ genome := 1, fit_set := false }] } (by decide),
   trainer_set_length_invariants.2.2 stA none none none⟩

/-- C2 (amended): immediately after the scheduled Best-Predictor Cache
refresh inside `generational_step`, every solution individual's "fitness is
current" flag is false; `load_populations` with `replace = true` also leaves
every (freshly constructed) solution individual's flag false.  (With
`replace = false` the cache is still replaced but retained solution
individuals keep their flags — see the counterexample.) -/
theorem cache_replacement_clears_solution_flags (O : Oracles) :
    (∀ s s2, (s.solution_island.age + 1) % s.predictor_update_freq = 0 →
        predictor_refresh O s = some s2 →
        ∀ i ∈ s2.solution_island.pop, i.fit_set = false) ∧
    (∀ s s2 pl, load_populations O pl true s = some s2 →
        ∀ i ∈ s2.solution_island.pop, i.fit_set = false) := by
  constructor
  · intro s s2 hfire h i hi
    simp only [predictor_refresh] at h
    split at h
    · exact Option.noConfusion h
    · split at h
      · exact Option.noConfusion h
      · rename_i b hb
        simp only [Option.some.injEq] at h
        subst h
        simp only [List.mem_map] at hi
        obtain ⟨a, _, rfl⟩ := hi
        rfl
  · intro s s2 pl h i hi
    simp only [load_populations] at h
    split at h
    · exact Option.noConfusion h
    · rename_i b hb
      simp only [Option.some.injEq] at h
      subst h
      simp only [Island.load_population, if_true, List.nil_append, List.mem_map] at hi
      obtain ⟨g, _, rfl⟩ := hi
      rfl

theorem cache_replacement_clears_solution_flags_witness :
    (stR.solution_island.age + 1) % stR.predictor_update_freq = 0 ∧
    Indv.fit_set { genome := 1, fit_set := false } = false ∧
    Indv.fit_set { genome := 2, fit_set := false } = false :=
  ⟨by decide,
   (cache_replacement_clears_solution_flags oNum).1 stR stR2 (by decide) (by decide)
     { genome := 1, fit_set := false } (by decide),
   (cache_replacement_clears_solution_flags oNum).2 stA stL2 ([2], [3], [(4, RVal.val 1)])
     (by decide) { genome := 2, fit_set := false } (by decide)⟩

/-- C3 (amended): immediately after the scheduled trainer refresh inside
`generational_step` (the firing `trainer_update`), every predictor
individual's "fitness is current" flag is false.  (A direct `add_new_trainer`
call, `dump_populations` with removal and `load_populations` do not clear the
flags of retained predictor individuals — see the counterexample.) -/
theorem scheduled_trainer_update_clears_predictor_flags (O : Oracles) :
    ∀ s s2, (s.predictor_island.age + 1) % s.trainer_update_freq = 0 →
      trainer_update O s = some s2 →
      ∀ i ∈ s2.predictor_island.pop, i.fit_set = false := by
  intro s s2 hfire h i hi
  simp only [trainer_update] at h
  split at h
  · exact Option.noConfusion h
  · cases ha : add_new_trainer O s with
    | none => rw [ha] at h; exact Option.noConfusion h
    | some a =>
      rw [ha] at h
      simp only [Option.map_some', Option.some.injEq] at h
      subst h
      simp only [List.mem_map] at hi
      obtain ⟨a2, _, rfl⟩ := hi
      rfl

theorem scheduled_trainer_update_clears_predictor_flags_witness :
    (stT.predictor_island.age + 1) % stT.trainer_update_freq = 0 ∧
    Indv.fit_set { genome := 2, fit_set := false } = false :=
  ⟨by decide,
   scheduled_trainer_update_clears_predictor_flags oNan stT stT2 (by decide) (by decide)
     { genome := 2, fit_set := false } (by decide)⟩

/-- C6 (amended): the scheduled trainer refresh fires exactly when the next
predictor generation age is a multiple of the trainer-update frequency, and
`add_new_trainer` overwrites slot `(solution age / frequency) % trainer
count`; with four trainers and frequency 50, calls at solution ages 49, 99,
149, 199 therefore overwrite slots 0, 1, 2, 3 (not 1, 2, 3, 0 as claimed). -/
theorem scheduler_slot_formula (O : Oracles) :
    (∀ s, s.trainer_update_freq ≠ 0 →
        (s.predictor_island.age + 1) % s.trainer_update_freq ≠ 0 →
        trainer_update O s = some s) ∧
    (∀ s s2, s.trainer_update_freq = 50 → s.trainers.length = 4 →
        add_new_trainer O s = some s2 →
        (s2.trainers = s.trainers.set ((s.solution_island.age / 50) % 4) (scan_best O s) ∧
         (s.solution_island.age = 49 → (s.solution_island.age / 50) % 4 = 0) ∧
         (s.solution_island.age = 99 → (s.solution_island.age / 50) % 4 = 1) ∧
         (s.solution_island.age = 149 → (s.solution_island.age / 50) % 4 = 2) ∧
         (s.solution_island.age = 199 → (s.solution_island.age / 50) % 4 = 3))) := by
  constructor
  · intro s h0 hfire
    simp [trainer_update, h0, hfire]
  · intro s s2 h50 h4 h
    simp only [add_new_trainer] at h
    split at h
    · exact Option.noConfusion h
    · split at h
      · rename_i hz
        rw [h50] at hz
        exact absurd hz (by decide)
      · split at h
        · rename_i hz
          rw [h4] at hz
          exact absurd hz (by decide)
        · simp only [Option.some.injEq] at h
          subst h
          refine ⟨by simp [h50, h4], ?_, ?_, ?_, ?_⟩ <;> intro ha <;> rw [ha]

theorem scheduler_slot_formula_witness :
    trainer_update oNan stA = some stA ∧
    (stD2.trainers = stD.trainers.set ((stD.solution_island.age / 50) % 4) (scan_best oNan stD) ∧
     (stD.solution_island.age = 49 → (stD.solution_island.age / 50) % 4 = 0) ∧
     (stD.solution_island.age = 99 → (stD.solution_island.age / 50) % 4 = 1) ∧
     (stD.solution_island.age = 149 → (stD.solution_island.age / 50) % 4 = 2) ∧
     (stD.solution_island.age = 199 → (stD.solution_island.age / 50) % 4 = 3)) :=
  ⟨(scheduler_slot_formula oNan).1 stA (by decide) (by decide),
   (scheduler_slot_formula oNan).2 stD stD2 rfl (by decide) (by decide)⟩

theorem foldl_abs_err (O : Oracles) (p : Indv) :
    ∀ (l : List (Indv × RVal)) (c : ℚ),
      (∀ tt ∈ l, tt.2 ≠ RVal.nan ∧ O.predScore p.genome tt.1.genome ≠ RVal.nan) →
      l.foldl (fun acc tt => RVal.add acc (RVal.abs (RVal.sub tt.2
        (O.predScore p.genome tt.1.genome)))) (RVal.val c) =
      RVal.val (c + (l.map (fun tt =>
        |tt.2.toQ - (O.predScore p.genome tt.1.genome).toQ|)).sum) := by
  intro l
  induction l with
  | nil => intro c _; simp
  | cons tt rest ih =>
    intro c h
    obtain ⟨h1, h2⟩ := h tt (List.mem_cons_self tt rest)
    cases e1 : tt.2 with
    | nan => exact absurd e1 h1
    | val a =>
      cases e2 : O.predScore p.genome tt.1.genome with
      | nan => exact absurd e2 h2
      | val b =>
        simp only [List.foldl_cons, List.map_cons, List.sum_cons, e1, e2]
        rw [show RVal.add (RVal.val c) (RVal.abs (RVal.sub (RVal.val a) (RVal.val b)))
              = RVal.val (c + |a - b|) from rfl]
        rw [ih (c + |a - b|) (fun u hu => h u (List.mem_cons_of_mem _ hu))]
        simp only [RVal.toQ]
        exact congrArg RVal.val (by ring)

/-- C7 (amended): whenever every stored trainer fitness and every predictor
estimate on a trainer is a number (not the NaN sentinel), `predictor_fitness`
equals the arithmetic mean, over exactly the current trainers, of the absolute
difference between the stored exact fitness and the predictor's estimate, and
this mean is greater than or equal to zero.  (If any involved value is NaN the
result is NaN, which is not ≥ 0 — see the counterexample.) -/
theorem predictor_fitness_mean_abs_error (O : Oracles) (s : CoevState) (p : Indv)
    (hlen : s.trainers.length = s.trainers_true_fitness.length)
    (hne : s.trainers ≠ [])
    (hnum : ∀ tt ∈ s.trainers.zip s.trainers_true_fitness,
        tt.2 ≠ RVal.nan ∧ O.predScore p.genome tt.1.genome ≠ RVal.nan) :
    (s.trainers.zip s.trainers_true_fitness).map Prod.fst = s.trainers ∧
    predictor_fitness O s p = some (RVal.val
      (((s.trainers.zip s.trainers_true_fitness).map (fun tt =>
          |tt.2.toQ - (O.predScore p.genome tt.1.genome).toQ|)).sum
        / (s.trainers.length : ℚ))) ∧
    0 ≤ ((s.trainers.zip s.trainers_true_fitness).map (fun tt =>
          |tt.2.toQ - (O.predScore p.genome tt.1.genome).toQ|)).sum
        / (s.trainers.length : ℚ) := by
  have hl : s.trainers.length ≠ 0 := fun hh => hne (List.length_eq_zero.mp hh)
  refine ⟨zip_map_fst_eq _ _ hlen, ?_, ?_⟩
  · simp only [predictor_fitness, hl, if_false]
    rw [foldl_abs_err O p _ 0 hnum]
    simp [RVal.divN]
  · apply div_nonneg
    · apply List.sum_nonneg
      intro x hx
      simp only [List.mem_map] at hx
      obtain ⟨tt, _, rfl⟩ := hx
      exact abs_nonneg _
    · exact Nat.cast_nonneg _

theorem predictor_fitness_mean_abs_error_witness :
    (stA.trainers.zip stA.trainers_true_fitness).map Prod.fst = stA.trainers ∧
    predictor_fitness oNum stA { genome := 2, fit_set := false } = some (RVal.val
      (((stA.trainers.zip stA.trainers_true_fitness).map (fun tt =>
          |tt.2.toQ - (oNum.predScore
            ({ genome := 2, fit_set := false } : Indv).genome tt.1.genome).toQ|)).sum
        / (stA.trainers.length : ℚ))) ∧
    0 ≤ ((stA.trainers.zip stA.trainers_true_fitness).map (fun tt =>
          |tt.2.toQ - (oNum.predScore
            ({ genome := 2, fit_set := false } : Indv).genome tt.1.genome).toQ|)).sum
        / (stA.trainers.length : ℚ) :=
  predictor_fitness_mean_abs_error oNum stA { genome := 2, fit_set := false }
    (by decide) (by decide) (by decide)

/-- C4: dumping the full state (no removal) leaves the state unchanged, and
loading the dump with `replace = true` restores the solution population, the
predictor population (as genome lists) and the trainer (genome, exact-fitness)
content; the Best-Predictor Cache is recomputed as the restored predictor
population's best member rather than round-tripped. -/
theorem dump_load_round_trip (O : Oracles) (s s2 : CoevState)
    (hlen : s.trainers.length = s.trainers_true_fitness.length)
    (h2 : load_populations O (dump_populations s none none none false).1 true s = some s2) :
    (dump_populations s none none none false).2 = s ∧
    s2.solution_island.pop.map Indv.genome = s.solution_island.pop.map Indv.genome ∧
    s2.predictor_island.pop.map Indv.genome = s.predictor_island.pop.map Indv.genome ∧
    s2.trainers.map Indv.genome = s.trainers.map Indv.genome ∧
    s2.trainers_true_fitness = s.trainers_true_fitness ∧
    O.bestF s2.predictor_island.pop = some s2.best_predictor := by
  have hzlen : (s.trainers.zip s.trainers_true_fitness).length ≤ s.trainers.length := by
    rw [List.length_zip]
    exact min_le_left _ _
  have hdump : (dump_populations s none none none false).1 =
      (s.solution_island.pop.map Indv.genome,
       s.predictor_island.pop.map Indv.genome,
       (s.trainers.zip s.trainers_true_fitness).map (fun tt => (tt.1.genome, tt.2))) := by
    simp only [dump_populations, Island.dump_population, Option.getD_none]
    rw [filterIdx_range_all _ _ le_rfl, filterIdx_range_all _ _ le_rfl,
        filterIdx_range_all _ _ hzlen]
  rw [hdump] at h2
  simp only [load_populations, Island.load_population] at h2
  split at h2
  · exact Option.noConfusion h2
  · rename_i b hb
    simp only [Option.some.injEq] at h2
    subst h2
    refine ⟨rfl, ?_, ?_, ?_, ?_, ?_⟩
    · simp [List.map_map, Function.comp]
    · simp [List.map_map, Function.comp]
    · have hfst := congrArg (List.map Indv.genome) (zip_map_fst_eq _ _ hlen)
      simp only [List.map_map] at hfst
      simpa [List.map_map, Function.comp] using hfst
    · have hsnd := zip_map_snd_eq _ _ hlen
      simpa [List.map_map, Function.comp] using hsnd
    · exact hb

theorem dump_load_round_trip_witness :
    (dump_populations stA none none none false).2 = stA ∧
    stA.solution_island.pop.map Indv.genome = stA.solution_island.pop.map Indv.genome ∧
    stA.predictor_island.pop.map Indv.genome = stA.predictor_island.pop.map Indv.genome ∧
    stA.trainers.map Indv.genome = stA.trainers.map Indv.genome ∧
    stA.trainers_true_fitness = stA.trainers_true_fitness ∧
    oNum.bestF stA.predictor_island.pop = some stA.best_predictor :=
  dump_load_round_trip oNum stA stA (by decide) (by decide)

theorem add_new_trainer_fields (O : Oracles) (s a : CoevState)
    (h : add_new_trainer O s = some a) :
    a.solution_island = s.solution_island ∧ a.predictor_island = s.predictor_island ∧
    a.trainers.length = s.trainers.length ∧
    a.trainers_true_fitness = s.trainers_true_fitness ∧
    a.ratio_target = s.ratio_target ∧
    a.predictor_update_freq = s.predictor_update_freq ∧
    a.trainer_update_freq = s.trainer_update_freq ∧
    a.predictor_to_solution_eval_cost = s.predictor_to_solution_eval_cost := by
  simp only [add_new_trainer] at h
  split at h
  · exact Option.noConfusion h
  · split at h
    · exact Option.noConfusion h
    · split at h
      · exact Option.noConfusion h
      · simp only [Option.some.injEq] at h
        subst h
        exact ⟨rfl, rfl, by simp [List.length_set], rfl, rfl, rfl, rfl, rfl⟩

theorem trainer_update_fields (O : Oracles) (s t : CoevState)
    (h : trainer_update O s = some t) :
    t.solution_island = s.solution_island ∧
    t.predictor_island.age = s.predictor_island.age ∧
    t.predictor_island.fitness_evals = s.predictor_island.fitness_evals ∧
    t.predictor_island.pop.length = s.predictor_island.pop.length ∧
    t.trainers.length = s.trainers.length ∧
    t.ratio_target = s.ratio_target ∧
    t.predictor_update_freq = s.predictor_update_freq ∧
    t.trainer_update_freq = s.trainer_update_freq ∧
    t.predictor_to_solution_eval_cost = s.predictor_to_solution_eval_cost := by
  simp only [trainer_update] at h
  split at h
  · exact Option.noConfusion h
  · split at h
    · cases ha : add_new_trainer O s with
      | none => rw [ha] at h; exact Option.noConfusion h
      | some a =>
        obtain ⟨f1, f2, f3, f4, f5, f6, f7, f8⟩ := add_new_trainer_fields O s a ha
        rw [ha] at h
        simp only [Option.map_some', Option.some.injEq] at h
        subst h
        refine ⟨f1, ?_, ?_, ?_, f3, f5, f6, f7, f8⟩
        · show a.predictor_island.age = s.predictor_island.age
          rw [f2]
        · show a.predictor_island.fitness_evals = s.predictor_island.fitness_evals
          rw [f2]
        · show (a.predictor_island.pop.map _).length = s.predictor_island.pop.length
          rw [List.length_map, f2]
    · simp only [Option.some.injEq] at h
      subst h
      exact ⟨rfl, rfl, rfl, rfl, rfl, rfl, rfl, rfl, rfl⟩

theorem loop_body_fields (O : Oracles) (s t : CoevState)
    (h : loop_body O s = some t) :
    t.predictor_island.age = s.predictor_island.age + 1 ∧
    t.predictor_island.fitness_evals
      = s.predictor_island.fitness_evals + (O.pOracle s.predictor_island.age).2 ∧
    t.predictor_island.pop = (O.pOracle s.predictor_island.age).1 ∧
    t.solution_island = s.solution_island ∧
    t.trainers.length = s.trainers.length ∧
    t.ratio_target = s.ratio_target ∧
    t.predictor_update_freq = s.predictor_update_freq ∧
    t.trainer_update_freq = s.trainer_update_freq ∧
    t.predictor_to_solution_eval_cost = s.predictor_to_solution_eval_cost := by
  simp only [loop_body] at h
  cases ht : trainer_update O s with
  | none => rw [ht] at h; exact Option.noConfusion h
  | some s1 =>
    obtain ⟨f1, f2, f3, f4, f5, f6, f7, f8, f9⟩ := trainer_update_fields O s s1 ht
    rw [ht] at h
    simp only [Option.map_some', Option.some.injEq] at h
    subst h
    refine ⟨?_, ?_, ?_, f1, f5, f6, f7, f8, f9⟩
    · show s1.predictor_island.age + 1 = s.predictor_island.age + 1
      rw [f2]
    · show s1.predictor_island.fitness_evals + (O.pOracle s1.predictor_island.age).2
        = s.predictor_island.fitness_evals + (O.pOracle s.predictor_island.age).2
      rw [f2, f3]
    · show (O.pOracle s1.predictor_island.age).1 = (O.pOracle s.predictor_island.age).1
      rw [f2]

theorem predictor_loop_ok_runs (O : Oracles) :
    ∀ fuel s t, predictor_loop O fuel s = LoopRes.ok t →
      loop_runs O (loop_count O fuel s) s t ∧
      t.predictor_island.age = s.predictor_island.age + loop_count O fuel s ∧
      t.solution_island = s.solution_island := by
  intro fuel
  induction fuel with
  | zero =>
    intro s t h
    simp only [predictor_loop] at h
    exact LoopRes.noConfusion h
  | succ fuel ih =>
    intro s t h
    simp only [predictor_loop] at h
    cases hr : ratioOf s with
    | none =>
      simp only [hr] at h
      exact LoopRes.noConfusion h
    | some r =>
      simp only [hr] at h
      by_cases hlt : r < s.ratio_target
      · rw [if_pos hlt] at h
        cases hb : loop_body O s with
        | none =>
          simp only [hb] at h
          exact LoopRes.noConfusion h
        | some u =>
          simp only [hb] at h
          have hres := ih u t h
          have hfields := loop_body_fields O s u hb
          have hlow : ratio_low s = true := by simp [ratio_low, hr, hlt]
          have hcnt : loop_count O (fuel + 1) s = loop_count O fuel u + 1 := by
            simp [loop_count, hlow, hb]
          refine ⟨?_, ?_, ?_⟩
          · rw [hcnt]
            simp only [loop_runs, hb]
            exact ⟨hlow, hres.1⟩
          · rw [hcnt, hres.2.1, hfields.1]
            omega
          · rw [hres.2.2, hfields.2.2.2.1]
      · rw [if_neg hlt] at h
        simp only [LoopRes.ok.injEq] at h
        subst h
        have hlow : ratio_low s = false := by simp [ratio_low, hr, hlt]
        have hcnt : loop_count O (fuel + 1) s = 0 := by simp [loop_count, hlow]
        rw [hcnt]
        exact ⟨⟨rfl, hlow⟩, by omega, rfl⟩

theorem predictor_refresh_fields (O : Oracles) (s u : CoevState)
    (h : predictor_refresh O s = some u) :
    u.solution_island.age = s.solution_island.age ∧
    u.solution_island.fitness_evals = s.solution_island.fitness_evals ∧
    u.predictor_island = s.predictor_island ∧
    u.trainers = s.trainers ∧
    u.trainer_update_freq = s.trainer_update_freq ∧
    u.predictor_update_freq = s.predictor_update_freq ∧
    u.predictor_to_solution_eval_cost = s.predictor_to_solution_eval_cost ∧
    u.ratio_target = s.ratio_target ∧
    u.solution_island.pop.length = s.solution_island.pop.length := by
  simp only [predictor_refresh] at h
  split at h
  · exact Option.noConfusion h
  · split at h
    · split at h
      · exact Option.noConfusion h
      · rename_i b hb
        simp only [Option.some.injEq] at h
        subst h
        exact ⟨rfl, rfl, rfl, rfl, rfl, rfl, rfl, rfl, by simp⟩
    · simp only [Option.some.injEq] at h
      subst h
      exact ⟨rfl, rfl, rfl, rfl, rfl, rfl, rfl, rfl, rfl⟩

/-- C5: `generational_step` computes the current ratio as
`predictorEvals / (predictorEvals + solutionEvals / costRatio)` (the
definition `ratioOf`), where the cost proxy is set at construction to the
number of trainers; the predictor engine is advanced one generation at a time,
the ratio recomputed after each step, exactly as long as the ratio is strictly
below the target (`loop_runs`), and afterwards the solution engine is advanced
exactly one generation. -/
theorem generational_step_schedule :
    (∀ O solI predI rt pfreq tsize tfreq fuel draws s0,
        coevolution_init O solI predI rt pfreq tsize tfreq fuel draws = some s0 →
        s0.predictor_to_solution_eval_cost = s0.trainers.length) ∧
    (∀ O fuel s t u,
        predictor_loop O fuel s = LoopRes.ok t →
        predictor_refresh O t = some u →
        loop_runs O (loop_count O fuel s) s t ∧
        t.predictor_island.age = s.predictor_island.age + loop_count O fuel s ∧
        t.solution_island = s.solution_island ∧
        generational_step O fuel s = LoopRes.ok (solution_phase O u) ∧
        (solution_phase O u).solution_island.age = s.solution_island.age + 1) := by
  constructor
  · intro O solI predI rt pfreq tsize tfreq fuel draws s0 h
    simp only [coevolution_init] at h
    split at h
    · exact Option.noConfusion h
    · split at h
      · exact Option.noConfusion h
      · simp only [Option.some.injEq] at h
        subst h
        rfl
  · intro O fuel s t u h1 h2
    have hrun := predictor_loop_ok_runs O fuel s t h1
    have href := predictor_refresh_fields O t u h2
    refine ⟨hrun.1, hrun.2.1, hrun.2.2, ?_, ?_⟩
    · simp only [generational_step, h1, h2]
    · simp only [solution_phase, Island.generational_step]
      rw [href.1, hrun.2.2]

theorem generational_step_schedule_witness :
    s0W.predictor_to_solution_eval_cost = s0W.trainers.length ∧
    (loop_runs oNum (loop_count oNum 1 stA) stA stA ∧
     stA.predictor_island.age = stA.predictor_island.age + loop_count oNum 1 stA ∧
     stA.solution_island = stA.solution_island ∧
     generational_step oNum 1 stA = LoopRes.ok (solution_phase oNum stA) ∧
     (solution_phase oNum stA).solution_island.age = stA.solution_island.age + 1) :=
  ⟨generational_step_schedule.1 oNum islW islW 0 50 1 50 1 (fun _ => 0) s0W (by decide),
   generational_step_schedule.2 oNum 1 stA stA stA
     (by norm_num [predictor_loop, ratioOf, stA]) (by decide)⟩

theorem ratioOf_isSome (s : CoevState) (hc : s.predictor_to_solution_eval_cost ≠ 0)
    (he : s.predictor_island.fitness_evals ≠ 0 ∨ s.solution_island.fitness_evals ≠ 0) :
    (ratioOf s).isSome := by
  have hd : ((s.predictor_island.fitness_evals : ℚ) +
      (s.solution_island.fitness_evals : ℚ) / (s.predictor_to_solution_eval_cost : ℚ)) ≠ 0 := by
    rcases he with he | he
    · have hp : (0:ℚ) < (s.predictor_island.fitness_evals : ℚ) := by
        exact_mod_cast Nat.pos_of_ne_zero he
      have hq : (0:ℚ) ≤ (s.solution_island.fitness_evals : ℚ)
          / (s.predictor_to_solution_eval_cost : ℚ) :=
        div_nonneg (Nat.cast_nonneg _) (Nat.cast_nonneg _)
      exact ne_of_gt (by linarith)
    · have hq : (0:ℚ) < (s.solution_island.fitness_evals : ℚ)
          / (s.predictor_to_solution_eval_cost : ℚ) :=
        div_pos (by exact_mod_cast Nat.pos_of_ne_zero he)
          (by exact_mod_cast Nat.pos_of_ne_zero hc)
      have hp : (0:ℚ) ≤ (s.predictor_island.fitness_evals : ℚ) := Nat.cast_nonneg _
      exact ne_of_gt (by linarith)
  simp [ratioOf, hc, hd]

theorem add_new_trainer_isSome (O : Oracles) (s : CoevState)
    (ht : s.trainer_update_freq ≠ 0) (hsp : s.solution_island.pop ≠ [])
    (htr : s.trainers ≠ []) : (add_new_trainer O s).isSome := by
  have hl : s.trainers.length ≠ 0 := fun hh => htr (List.length_eq_zero.mp hh)
  cases hp : s.solution_island.pop with
  | nil => exact absurd hp hsp
  | cons p rest => simp [add_new_trainer, hp, ht, hl]

theorem trainer_update_isSome (O : Oracles) (s : CoevState)
    (ht : s.trainer_update_freq ≠ 0) (hsp : s.solution_island.pop ≠ [])
    (htr : s.trainers ≠ []) : (trainer_update O s).isSome := by
  by_cases hf : (s.predictor_island.age + 1) % s.trainer_update_freq = 0
  · have ha := add_new_trainer_isSome O s ht hsp htr
    cases h : add_new_trainer O s with
    | none => rw [h] at ha; simp at ha
    | some a => simp [trainer_update, ht, hf, h]
  · simp [trainer_update, ht, hf]

theorem loop_body_isSome (O : Oracles) (s : CoevState)
    (ht : s.trainer_update_freq ≠ 0) (hsp : s.solution_island.pop ≠ [])
    (htr : s.trainers ≠ []) : (loop_body O s).isSome := by
  have hu := trainer_update_isSome O s ht hsp htr
  cases h : trainer_update O s with
  | none => rw [h] at hu; simp at hu
  | some s1 => simp [loop_body, h]

theorem length_ne_nil {α : Type} {l1 l2 : List α} (hl : l1.length = l2.length)
    (h : l2 ≠ []) : l1 ≠ [] := by
  intro hnil
  rw [hnil] at hl
  exact h (List.length_eq_zero.mp hl.symm)

theorem loop_body_pres (O : Oracles) (hporacle : ∀ n, (O.pOracle n).1 ≠ [])
    (s t : CoevState) (hb : loop_body O s = some t) (hs : SafeState s) :
    SafeState t := by
  obtain ⟨f1, f2, f3, f4, f5, f6, f7, f8, f9⟩ := loop_body_fields O s t hb
  obtain ⟨h1, h2, h3, h4, h5, h6, h7⟩ := hs
  refine ⟨by rw [f8]; exact h1, by rw [f7]; exact h2, by rw [f9]; exact h3, ?_, ?_, ?_, ?_⟩
  · rcases h4 with h4 | h4
    · left
      rw [f2]
      omega
    · right
      rw [f4]
      exact h4
  · rw [f4]
    exact h5
  · intro hnil
    have : t.trainers.length = 0 := by rw [hnil]; rfl
    rw [f5] at this
    exact h6 (List.length_eq_zero.mp this)
  · rw [f3]
    exact hporacle _

theorem predictor_loop_no_raise (O : Oracles) (hporacle : ∀ n, (O.pOracle n).1 ≠ []) :
    ∀ fuel s, SafeState s →
      predictor_loop O fuel s = LoopRes.fuelOut ∨
      ∃ t, predictor_loop O fuel s = LoopRes.ok t ∧ SafeState t := by
  intro fuel
  induction fuel with
  | zero =>
    intro s hs
    left
    simp [predictor_loop]
  | succ fuel ih =>
    intro s hs
    obtain ⟨h1, h2, h3, h4, h5, h6, h7⟩ := hs
    have hr := ratioOf_isSome s h3 h4
    cases hro : ratioOf s with
    | none => rw [hro] at hr; simp at hr
    | some r =>
      by_cases hlt : r < s.ratio_target
      · have hbi := loop_body_isSome O s h1 h5 h6
        cases hbo : loop_body O s with
        | none => rw [hbo] at hbi; simp at hbi
        | some t =>
          have hst : SafeState t :=
            loop_body_pres O hporacle s t hbo ⟨h1, h2, h3, h4, h5, h6, h7⟩
          have hstep : predictor_loop O (fuel + 1) s = predictor_loop O fuel t := by
            simp [predictor_loop, hro, hlt, hbo]
          rw [hstep]
          exact ih t hst
      · right
        exact ⟨s, by simp [predictor_loop, hro, hlt], ⟨h1, h2, h3, h4, h5, h6, h7⟩⟩

theorem predictor_refresh_isSome (O : Oracles) (s : CoevState)
    (hpf : s.predictor_update_freq ≠ 0)
    (hbest : ∀ l, l ≠ ([] : List Indv) → (O.bestF l).isSome)
    (hpp : s.predictor_island.pop ≠ []) :
    (predictor_refresh O s).isSome := by
  by_cases hf : (s.solution_island.age + 1) % s.predictor_update_freq = 0
  · have hbs := hbest _ hpp
    cases hb : O.bestF s.predictor_island.pop with
    | none => rw [hb] at hbs; simp at hbs
    | some b => simp [predictor_refresh, hpf, hf, hb]
  · simp [predictor_refresh, hpf, hf]

theorem scan_fold_const (O : Oracles) (s : CoevState) :
    ∀ (l : List Indv) (x : Indv),
      (∀ sol ∈ l, RVal.gt (npVar (pfit_list O s sol)) (RVal.val 0) = false) →
      l.foldl (fun (acc : Indv × RVal) sol =>
        if RVal.gt (npVar (pfit_list O s sol)) acc.2 then (sol, npVar (pfit_list O s sol))
        else acc) (x, RVal.val 0) = (x, RVal.val 0) := by
  intro l
  induction l with
  | nil => intro x _; rfl
  | cons a as ih =>
    intro x h
    have ha := h a (List.mem_cons_self a as)
    simp only [List.foldl_cons, ha, Bool.false_eq_true, if_false]
    exact ih x (fun u hu => h u (List.mem_cons_of_mem _ hu))

/-- C9: on states with non-empty populations, trainers, non-zero frequencies
and cost, and at least one recorded evaluation, `generational_step` never
raises — in particular when every predictor score is the NaN sentinel — and
`add_new_trainer` succeeds; in the candidate scan an undefined (NaN) variance
never beats the running maximum, so if no candidate improves on the initial
zero threshold the population's first member is chosen by default. -/
theorem nan_scores_never_raise (O : Oracles) (s : CoevState)
    (hbest : ∀ l, l ≠ ([] : List Indv) → (O.bestF l).isSome)
    (hporacle : ∀ n, (O.pOracle n).1 ≠ [])
    (h1 : s.trainer_update_freq ≠ 0) (h2 : s.predictor_update_freq ≠ 0)
    (h3 : s.predictor_to_solution_eval_cost ≠ 0)
    (h4 : s.predictor_island.fitness_evals ≠ 0 ∨ s.solution_island.fitness_evals ≠ 0)
    (h5 : s.solution_island.pop ≠ []) (h6 : s.trainers ≠ [])
    (h7 : s.predictor_island.pop ≠ []) :
    (∀ fuel, generational_step O fuel s ≠ LoopRes.raise) ∧
    (add_new_trainer O s).isSome ∧
    (∀ p rest, s.solution_island.pop = p :: rest →
        (∀ sol ∈ s.solution_island.pop,
          RVal.gt (npVar (pfit_list O s sol)) (RVal.val 0) = false) →
        scan_best O s = p) := by
  refine ⟨?_, add_new_trainer_isSome O s h1 h5 h6, ?_⟩
  · intro fuel
    rcases predictor_loop_no_raise O hporacle fuel s ⟨h1, h2, h3, h4, h5, h6, h7⟩ with
      hout | ⟨t, hok, hst⟩
    · simp [generational_step, hout]
    · have hrs : (predictor_refresh O t).isSome :=
        predictor_refresh_isSome O t hst.2.1 hbest hst.2.2.2.2.2.2
      cases hr : predictor_refresh O t with
      | none => rw [hr] at hrs; simp at hrs
      | some u => simp [generational_step, hok, hr]
  · intro p rest hp hvar
    rw [hp] at hvar
    simp only [scan_best, hp, List.headD_cons]
    rw [scan_fold_const O s (p :: rest) p hvar]

theorem nan_scores_never_raise_witness :
    generational_step oNan 2 stA ≠ LoopRes.raise ∧
    (add_new_trainer oNan stA).isSome ∧
    scan_best oNan stA = { genome := 1, fit_set := false } := by
  have h := nan_scores_never_raise oNan stA
    (fun l hl => by
      cases l with
      | nil => exact absurd rfl hl
      | cons a as => simp [oNan])
    (fun n => by simp [oNan])
    (by decide) (by decide) (by decide) (by decide) (by decide) (by decide) (by decide)
  exact ⟨h.1 2, h.2.1,
    h.2.2 { genome := 1, fit_set := false } [] (by decide) (by decide)⟩
